import Mathlib

/-!
Shallow embedding of `jni/Echo.cpp` (TCP echo server/client exposed through JNI).

The OS socket layer and the C library are modelled by an oracle structure `OS`:
each syscall's outcome (descriptor / error number) is a field, the two
per-iteration calls of the echo loop (`recv`, `send`) are streams indexed by the
iteration counter, and `strerror_r` is a function from error numbers to message
strings (modelled as always succeeding, so the `-1 == strerror_r` retry branch
of `ThrowErrnoException` is never taken).

The observable behaviour of a run is a list of `Event`s: every log line emitted
through the JNI `logMessage` callback (as a structured `LogMsg`, one constructor
per C format string), every socket syscall with its arguments, and every
exception raised through `ThrowNew` (`Event.raiseErr`, carrying the message).
The JNI pending-exception flag (`env->ExceptionOccurred()`) is modelled by the
`Option String` component each helper returns; the caller checks it after every
step exactly where the C code does.

The transfer buffer `char buffer[MAX_BUFFER_SIZE]` is a `List Nat` of length 80;
`recv` writing into it is `writeBytes`, and the null-termination
`buffer[recvSize] = NULL` is `setAt buffer recvSize` (write a 0 byte at that
offset; out-of-range indices leave the list unchanged, so in-boundedness is the
separate proposition `recvSize < buffer.length`).
-/

namespace Echo

/-- Structured log messages, one constructor per `LogMessage` format string of
`Echo.cpp` (for example `received n c` stands for
"Received %d bytes: %s" with the byte count and the buffer content). -/
inductive LogMsg where
  | constructing
  | bindingTo (port : Nat)
  | bindedRandom (port : Nat)
  | listeningWithBacklog (backlog : Nat)
  | waiting
  | clientConnectionFrom (ip : String) (port : Nat)
  | receiving
  | received (n : Nat) (content : List Nat)
  | clientDisconnected
  | sending
  | sent (n : Nat) (content : List Nat)
  deriving DecidableEq, Repr

/-- Observable events of a run: JNI log callbacks, raised exceptions
(`ThrowNew` with the message), and socket syscalls with their arguments. -/
inductive Event where
  | log : LogMsg → Event
  | raiseErr : String → Event
  | callSocket : Event
  | callBind : Int → Nat → Event
  | callGetsockname : Int → Event
  | callListen : Int → Nat → Event
  | callAccept : Int → Event
  | callConnect : Int → Event
  | callRecv : Int → Nat → Event
  | callSend : Int → List Nat → Event
  | callClose : Int → Event
  deriving DecidableEq, Repr

/-- Decidable equality for `Except`, so that concrete oracle outcomes can be
evaluated in witnesses. -/
instance instDecEqExcept {α β : Type} [DecidableEq α] [DecidableEq β] :
    DecidableEq (Except α β) := fun a b =>
  match a, b with
  | .ok x, .ok y =>
      if h : x = y then isTrue (by rw [h]) else isFalse (by simp [h])
  | .error x, .error y =>
      if h : x = y then isTrue (by rw [h]) else isFalse (by simp [h])
  | .ok _, .error _ => isFalse (by simp)
  | .error _, .ok _ => isFalse (by simp)

/-- Oracle for the OS socket layer: the result of each syscall the program can
make. `recvStream i` / `sendStream i` give the outcome of the i-th receive /
send of the echo loop (`recvStream i = .ok data` means the OS has `data`
available, of which `recv` takes at most the requested length; `sendStream`
gives the count the OS would accept, capped by the offered length). -/
structure OS where
  socketRes : Except Int Int
  bindRes : Except Int Unit
  getsocknameRes : Except Int Nat
  listenRes : Except Int Unit
  acceptRes : Except Int Int
  ntopRes : Except Int String
  peerPort : Nat
  recvStream : Nat → Except Int (List Nat)
  sendStream : Nat → Except Int Nat
  strerror : Int → String

/-- MAX_BUFFER_SIZE of `Echo.cpp`. -/
def MAX_BUFFER_SIZE : Nat := 80

/-- Write `data` into the front of `buf`, keeping the rest of `buf` (models
`recv` filling the start of the C array). The result has the length of `buf`. -/
def writeBytes : List Nat → List Nat → List Nat
  | buf, [] => buf
  | [], _ => []
  | _ :: bs, d :: ds => d :: writeBytes bs ds

/-- Write a 0 byte at index `n` (models `buffer[n] = NULL`); out-of-range
indices leave the list unchanged. -/
def setAt : List Nat → Nat → List Nat
  | [], _ => []
  | _ :: bs, 0 => 0 :: bs
  | b :: bs, n + 1 => b :: setAt bs n

/-- Buffer state after a successful receive of the bytes `d`: `d` is copied to
the front of the buffer and a 0 byte is written at offset `d.length`
(`buffer[recvSize] = NULL`). -/
def bufAfter (buf d : List Nat) : List Nat := setAt (writeBytes buf d) d.length

/-- Model of `ThrowErrnoException`: raises an exception whose message is the
platform text for the error number (`strerror_r` modelled as succeeding). -/
def ThrowErrnoException (os : OS) (errnum : Int) : List Event :=
  [Event.raiseErr (os.strerror errnum)]

/-- Result of a step that yields a descriptor-like integer. -/
structure CallOut where
  events : List Event
  ret : Int
  exc : Option String

/-- Result of a step that yields nothing. -/
structure UnitOut where
  events : List Event
  exc : Option String

/-- Result of `GetSocketPort`. -/
structure PortOut where
  events : List Event
  port : Nat
  exc : Option String

/-- Result of `ReceiveFromSocket`: events, the returned size, the updated
buffer, the pending exception. -/
structure RecvOut where
  events : List Event
  recvSize : Int
  buffer : List Nat
  exc : Option String

/-- Result of `SendToSocket`. -/
structure SendOut where
  events : List Event
  sentSize : Int
  exc : Option String

/-- Model of `NewTcpSocket`: log, call `socket`, throw on `-1`, return the
descriptor (`-1` on failure). -/
def NewTcpSocket (os : OS) : CallOut :=
  match os.socketRes with
  | .ok sd => ⟨[Event.log .constructing, Event.callSocket], sd, none⟩
  | .error e =>
      ⟨[Event.log .constructing, Event.callSocket] ++ ThrowErrnoException os e,
        -1, some (os.strerror e)⟩

/-- Model of `BindSocketToPort`: log the (already truncated) port, call `bind`
on the wildcard address, throw on `-1`. -/
def BindSocketToPort (os : OS) (sd : Int) (port : Nat) : UnitOut :=
  match os.bindRes with
  | .ok _ => ⟨[Event.log (.bindingTo port), Event.callBind sd port], none⟩
  | .error e =>
      ⟨[Event.log (.bindingTo port), Event.callBind sd port] ++
        ThrowErrnoException os e, some (os.strerror e)⟩

/-- Model of `GetSocketPort`: call `getsockname`; on failure throw, on success
log the discovered port and return it. -/
def GetSocketPort (os : OS) (sd : Int) : PortOut :=
  match os.getsocknameRes with
  | .error e =>
      ⟨[Event.callGetsockname sd] ++ ThrowErrnoException os e, 0,
        some (os.strerror e)⟩
  | .ok p => ⟨[Event.callGetsockname sd, Event.log (.bindedRandom p)], p, none⟩

/-- Model of `ListenOnSocket`: log the backlog, call `listen`, throw on `-1`. -/
def ListenOnSocket (os : OS) (sd : Int) (backlog : Nat) : UnitOut :=
  match os.listenRes with
  | .ok _ =>
      ⟨[Event.log (.listeningWithBacklog backlog), Event.callListen sd backlog],
        none⟩
  | .error e =>
      ⟨[Event.log (.listeningWithBacklog backlog), Event.callListen sd backlog]
        ++ ThrowErrnoException os e, some (os.strerror e)⟩

/-- Model of `LogAddress`: convert the peer address with `inet_ntop`; on
failure throw with the current error state, on success log the peer. -/
def LogAddress (os : OS) : UnitOut :=
  match os.ntopRes with
  | .error e => ⟨ThrowErrnoException os e, some (os.strerror e)⟩
  | .ok ip => ⟨[Event.log (.clientConnectionFrom ip os.peerPort)], none⟩

/-- Model of `AcceptOnSocket`: log, call `accept`; on failure throw and return
`-1`; on success log the peer address (which may itself raise) and return the
accepted descriptor either way. -/
def AcceptOnSocket (os : OS) (sd : Int) : CallOut :=
  match os.acceptRes with
  | .error e =>
      ⟨[Event.log .waiting, Event.callAccept sd] ++ ThrowErrnoException os e,
        -1, some (os.strerror e)⟩
  | .ok cs =>
      let la := LogAddress os
      ⟨[Event.log .waiting, Event.callAccept sd] ++ la.events, cs, la.exc⟩

/-- Model of `ReceiveFromSocket`: log, `recv` at most `bufferSize - 1` bytes
into the buffer, throw on `-1`; otherwise null-terminate the buffer at the
received length and log the data (or "Client disconnected." on 0). -/
def ReceiveFromSocket (os : OS) (i : Nat) (sd : Int) (buffer : List Nat)
    (bufferSize : Nat) : RecvOut :=
  match os.recvStream i with
  | .error e =>
      ⟨[Event.log .receiving, Event.callRecv sd (bufferSize - 1)] ++
        ThrowErrnoException os e, -1, buffer, some (os.strerror e)⟩
  | .ok data =>
      let d := data.take (bufferSize - 1)
      let buf2 := bufAfter buffer d
      if 0 < d.length then
        ⟨[Event.log .receiving, Event.callRecv sd (bufferSize - 1),
            Event.log (.received d.length (buf2.take d.length))],
          (d.length : Int), buf2, none⟩
      else
        ⟨[Event.log .receiving, Event.callRecv sd (bufferSize - 1),
            Event.log .clientDisconnected], 0, buf2, none⟩

/-- Model of `SendToSocket`: log, `send` the first `bufferSize` bytes of the
buffer, throw on `-1`; otherwise log the sent count and content (or "Client
disconnected." on 0). The OS cannot send more bytes than were offered. -/
def SendToSocket (os : OS) (i : Nat) (sd : Int) (buffer : List Nat)
    (bufferSize : Nat) : SendOut :=
  let payload := buffer.take bufferSize
  match os.sendStream i with
  | .error e =>
      ⟨[Event.log .sending, Event.callSend sd payload] ++
        ThrowErrnoException os e, -1, some (os.strerror e)⟩
  | .ok sc =>
      let m := min sc payload.length
      if 0 < m then
        ⟨[Event.log .sending, Event.callSend sd payload,
            Event.log (.sent m payload)], (m : Int), none⟩
      else
        ⟨[Event.log .sending, Event.callSend sd payload,
            Event.log .clientDisconnected], (m : Int), none⟩

/-- How a run of the echo loop ended: the peer disconnected (`break` with no
pending exception), an exception is pending (`failed`), or the modelling fuel
ran out before the loop ended (`fuelOut`; the C loop has no iteration bound). -/
inductive LoopExit where
  | done
  | failed
  | fuelOut
  deriving DecidableEq, Repr

/-- Model of the `while (1)` receive/send loop of `nativeStartTcpServer`,
iteration counter `i`, bounded by `fuel`. Mirrors:
receive; break on 0 or pending exception; send the `recvSize` bytes just
received; break on 0 or pending exception; repeat. -/
def echoLoop (os : OS) (cs : Int) :
    List Nat → Nat → Nat → List Event × LoopExit
  | _, _, 0 => ([], LoopExit.fuelOut)
  | buf, i, fuel + 1 =>
      let r := ReceiveFromSocket os i cs buf MAX_BUFFER_SIZE
      if r.recvSize = 0 ∨ r.exc.isSome then
        (r.events, if r.exc.isSome then LoopExit.failed else LoopExit.done)
      else
        let s := SendToSocket os i cs r.buffer r.recvSize.toNat
        if s.sentSize = 0 ∨ s.exc.isSome then
          (r.events ++ s.events,
            if s.exc.isSome then LoopExit.failed else LoopExit.done)
        else
          let rest := echoLoop os cs r.buffer (i + 1) fuel
          (r.events ++ s.events ++ rest.1, rest.2)

/-- Model of `Java_com_apress_echo_EchoServerActivity_nativeStartTcpServer`.
The `jint port` is truncated to `(unsigned short) port` (mod 2^16) for the
bind, while the `0 == port` discovery test uses the untruncated value; every
step is followed by the `ExceptionOccurred` check with `goto exit` on failure;
the client descriptor is closed after the loop inside the success block, and
the exit code closes the listening descriptor when it is positive. -/
def nativeStartTcpServer (os : OS) (port : Int) (fuel : Nat) : List Event :=
  let c1 := NewTcpSocket os
  let serverSocket := c1.ret
  let body : List Event :=
    if c1.exc.isSome then []
    else
      let b := BindSocketToPort os serverSocket (port % 65536).toNat
      if b.exc.isSome then b.events
      else
        let dsc : List Event × Option String :=
          if port = 0 then
            let g := GetSocketPort os serverSocket
            (g.events, g.exc)
          else ([], none)
        if dsc.2.isSome then b.events ++ dsc.1
        else
          let l := ListenOnSocket os serverSocket 4
          if l.exc.isSome then b.events ++ dsc.1 ++ l.events
          else
            let a := AcceptOnSocket os serverSocket
            if a.exc.isSome then b.events ++ dsc.1 ++ l.events ++ a.events
            else
              let lp := echoLoop os a.ret (List.replicate MAX_BUFFER_SIZE 0) 0
                fuel
              b.events ++ dsc.1 ++ l.events ++ a.events ++ lp.1 ++
                [Event.callClose a.ret]
  c1.events ++ body ++
    (if serverSocket > 0 then [Event.callClose serverSocket] else [])

/-- Model of `Java_com_apress_echo_EchoClientActivity_nativeStartTcpClient`:
construct a socket and, when no exception is pending, immediately close it.
The `ip`, `port` and `message` arguments are taken and ignored, as in the C. -/
def nativeStartTcpClient (os : OS) (ip : String) (port : Int)
    (message : String) : List Event :=
  let c1 := NewTcpSocket os
  c1.events ++ (if c1.exc.isSome then [] else [Event.callClose c1.ret])

/-- Predicate for receive/send syscall events. -/
def isIOCall : Event → Bool
  | .callRecv _ _ => true
  | .callSend _ _ => true
  | _ => false

/-- The receive/send syscall events of a trace, in order. -/
def ioCalls (es : List Event) : List Event := es.filter isIOCall

/-- Predicate for raised-exception events. -/
def isRaise : Event → Bool
  | .raiseErr _ => true
  | _ => false

/-- Number of exceptions raised in a trace. -/
def raiseCount (es : List Event) : Nat := (es.filter isRaise).length

/-- The payloads handed to the send syscall, in order. -/
def sendPayloads : List Event → List (List Nat)
  | [] => []
  | Event.callSend _ p :: es => p :: sendPayloads es
  | _ :: es => sendPayloads es

/-- Tags of the five lifecycle syscalls, for stating the ordering claim. -/
inductive StepTag where
  | socket
  | bind
  | getsock
  | listen
  | accept
  deriving DecidableEq, Repr

/-- Tag of an event when it is a lifecycle syscall. -/
def stepTag : Event → Option StepTag
  | .callSocket => some .socket
  | .callBind _ _ => some .bind
  | .callGetsockname _ => some .getsock
  | .callListen _ _ => some .listen
  | .callAccept _ => some .accept
  | _ => none

/-- The lifecycle syscalls of a trace, in order. -/
def lifecycleTags (es : List Event) : List StepTag := es.filterMap stepTag

/-- Specification-side definition, written from the spec's lifecycle sentence
(Factory, Bind, optional Discover when the requested port is 0, Listen,
Accept, strictly in that order, cut immediately after the first step that
signals failure), not from the code: the lifecycle syscalls a run should
perform given each step's outcome. -/
def specLifecycleTags (os : OS) (port : Int) : List StepTag :=
  match os.socketRes with
  | .error _ => [.socket]
  | .ok _ =>
      match os.bindRes with
      | .error _ => [.socket, .bind]
      | .ok _ =>
          if port = 0 then
            match os.getsocknameRes with
            | .error _ => [.socket, .bind, .getsock]
            | .ok _ =>
                match os.listenRes with
                | .error _ => [.socket, .bind, .getsock, .listen]
                | .ok _ => [.socket, .bind, .getsock, .listen, .accept]
          else
            match os.listenRes with
            | .error _ => [.socket, .bind, .listen]
            | .ok _ => [.socket, .bind, .listen, .accept]

/-- Base oracle for concrete runs: every syscall succeeds, the client sends
"ping" (bytes 112 105 110 103) and then disconnects. -/
def osBase : OS where
  socketRes := .ok 3
  bindRes := .ok ()
  getsocknameRes := .ok 49152
  listenRes := .ok ()
  acceptRes := .ok 4
  ntopRes := .ok "10.0.0.1"
  peerPort := 5555
  recvStream := fun i => if i = 0 then .ok [112, 105, 110, 103] else .ok []
  sendStream := fun _ => .ok 100
  strerror := fun _ => "Connection reset by peer"

/-- Oracle where `accept` succeeds (descriptor 4) but the `inet_ntop`
conversion of the peer address fails with error number 22. -/
def osNtopFail : OS := { osBase with ntopRes := .error 22 }

/-- Oracle like `osNtopFail` but with different descriptors, for the lifecycle
claim: socket 5, accepted descriptor 7. -/
def osNtopFail2 : OS :=
  { osBase with socketRes := .ok 5, acceptRes := .ok 7, ntopRes := .error 22 }

/-- Oracle whose first receive fails with error number 111. -/
def osRecvFail : OS :=
  { osBase with recvStream := fun _ => .error 111 }

/-- Oracle whose first receive is a zero-length read (client disconnect). -/
def osDisconnect : OS :=
  { osBase with recvStream := fun _ => .ok [] }

/-- Oracle whose sends are short: the OS accepts only 2 bytes per send. -/
def osShortSend : OS :=
  { osBase with sendStream := fun _ => .ok 2 }

/-- Oracle whose `getsockname` query fails with error number 9. -/
def osGetsockFail : OS :=
  { osBase with getsocknameRes := .error 9 }

/-- Oracle whose `socket` call fails with error number 24. -/
def osSocketFail : OS :=
  { osBase with socketRes := .error 24 }

theorem writeBytes_length (buf d : List Nat) :
    (writeBytes buf d).length = buf.length := by
  induction buf generalizing d with
  | nil => cases d <;> simp [writeBytes]
  | cons b bs ih =>
      cases d with
      | nil => simp [writeBytes]
      | cons x xs => simp [writeBytes, ih]

theorem setAt_length (l : List Nat) (n : Nat) :
    (setAt l n).length = l.length := by
  induction l generalizing n with
  | nil => simp [setAt]
  | cons b bs ih =>
      cases n with
      | zero => simp [setAt]
      | succ m => simp [setAt, ih]

theorem writeBytes_take (buf d : List Nat) (h : d.length ≤ buf.length) :
    (writeBytes buf d).take d.length = d := by
  induction d generalizing buf with
  | nil => simp
  | cons x xs ih =>
      cases buf with
      | nil => simp at h
      | cons b bs =>
          simp only [writeBytes, List.length_cons, List.take_succ_cons]
          exact congrArg (x :: ·) (ih bs (by simpa using h))

theorem setAt_take (l : List Nat) (n : Nat) :
    (setAt l n).take n = l.take n := by
  induction l generalizing n with
  | nil => simp [setAt]
  | cons b bs ih =>
      cases n with
      | zero => simp
      | succ m => simp [setAt, ih]

theorem setAt_getD (l : List Nat) (n : Nat) (h : n < l.length) :
    (setAt l n).getD n 1 = 0 := by
  induction l generalizing n with
  | nil => simp at h
  | cons b bs ih =>
      cases n with
      | zero => simp [setAt]
      | succ m => simpa [setAt] using ih m (by simpa using h)

theorem bufAfter_length (buf d : List Nat) :
    (bufAfter buf d).length = buf.length := by
  simp [bufAfter, setAt_length, writeBytes_length]

theorem bufAfter_take (buf d : List Nat) (h : d.length ≤ buf.length) :
    (bufAfter buf d).take d.length = d := by
  rw [bufAfter, setAt_take, writeBytes_take buf d h]

theorem bufAfter_terminated (buf d : List Nat) (h : d.length < buf.length) :
    (bufAfter buf d).getD d.length 1 = 0 := by
  refine setAt_getD _ _ ?_
  simpa [writeBytes_length] using h

theorem recv_error_eq (os : OS) (i : Nat) (sd : Int) (buffer : List Nat)
    (bufferSize : Nat) (e : Int) (h : os.recvStream i = .error e) :
    ReceiveFromSocket os i sd buffer bufferSize =
      ⟨[Event.log .receiving, Event.callRecv sd (bufferSize - 1),
          Event.raiseErr (os.strerror e)], -1, buffer, some (os.strerror e)⟩ := by
  simp [ReceiveFromSocket, h, ThrowErrnoException]

theorem recv_zero_eq (os : OS) (i : Nat) (sd : Int) (buffer : List Nat)
    (bufferSize : Nat) (data : List Nat) (h : os.recvStream i = .ok data)
    (hz : data.take (bufferSize - 1) = []) :
    ReceiveFromSocket os i sd buffer bufferSize =
      ⟨[Event.log .receiving, Event.callRecv sd (bufferSize - 1),
          Event.log .clientDisconnected], 0, bufAfter buffer [], none⟩ := by
  simp [ReceiveFromSocket, h, hz]

theorem recv_pos_eq (os : OS) (i : Nat) (sd : Int) (buffer : List Nat)
    (bufferSize : Nat) (data : List Nat) (h : os.recvStream i = .ok data)
    (hp : data.take (bufferSize - 1) ≠ []) :
    ReceiveFromSocket os i sd buffer bufferSize =
      ⟨[Event.log .receiving, Event.callRecv sd (bufferSize - 1),
          Event.log (.received (data.take (bufferSize - 1)).length
            ((bufAfter buffer (data.take (bufferSize - 1))).take
              (data.take (bufferSize - 1)).length))],
        ((data.take (bufferSize - 1)).length : Int),
        bufAfter buffer (data.take (bufferSize - 1)), none⟩ := by
  have hl : 0 < (data.take (bufferSize - 1)).length :=
    List.length_pos.2 hp
  simp only [ReceiveFromSocket, h]
  rw [if_pos hl]

theorem send_error_eq (os : OS) (i : Nat) (sd : Int) (buffer : List Nat)
    (bufferSize : Nat) (e : Int) (h : os.sendStream i = .error e) :
    SendToSocket os i sd buffer bufferSize =
      ⟨[Event.log .sending, Event.callSend sd (buffer.take bufferSize),
          Event.raiseErr (os.strerror e)], -1, some (os.strerror e)⟩ := by
  simp [SendToSocket, h, ThrowErrnoException]

theorem send_pos_eq (os : OS) (i : Nat) (sd : Int) (buffer : List Nat)
    (bufferSize : Nat) (sc : Nat) (h : os.sendStream i = .ok sc)
    (hm : 0 < min sc (buffer.take bufferSize).length) :
    SendToSocket os i sd buffer bufferSize =
      ⟨[Event.log .sending, Event.callSend sd (buffer.take bufferSize),
          Event.log (.sent (min sc (buffer.take bufferSize).length)
            (buffer.take bufferSize))],
        ((min sc (buffer.take bufferSize).length : Nat) : Int), none⟩ := by
  simp only [SendToSocket, h]
  rw [if_pos hm]

theorem send_zero_eq (os : OS) (i : Nat) (sd : Int) (buffer : List Nat)
    (bufferSize : Nat) (sc : Nat) (h : os.sendStream i = .ok sc)
    (hm : min sc (buffer.take bufferSize).length = 0) :
    SendToSocket os i sd buffer bufferSize =
      ⟨[Event.log .sending, Event.callSend sd (buffer.take bufferSize),
          Event.log .clientDisconnected], 0, none⟩ := by
  simp only [SendToSocket, h]
  rw [if_neg (Nat.not_lt.2 hm.le), hm]
  simp

theorem loop_recv_error_eq (os : OS) (cs : Int) (buf : List Nat) (i fuel : Nat)
    (e : Int) (h : os.recvStream i = .error e) :
    echoLoop os cs buf i (fuel + 1) =
      ([Event.log .receiving, Event.callRecv cs 79,
          Event.raiseErr (os.strerror e)], LoopExit.failed) := by
  simp [echoLoop, recv_error_eq os i cs buf 80 e h, MAX_BUFFER_SIZE]

theorem loop_disconnect_eq (os : OS) (cs : Int) (buf : List Nat) (i fuel : Nat)
    (data : List Nat) (h : os.recvStream i = .ok data) (hz : data.take 79 = []) :
    echoLoop os cs buf i (fuel + 1) =
      ([Event.log .receiving, Event.callRecv cs 79,
          Event.log .clientDisconnected], LoopExit.done) := by
  simp [echoLoop, recv_zero_eq os i cs buf 80 data h (by simpa using hz),
    MAX_BUFFER_SIZE]

theorem loop_send_error_eq (os : OS) (cs : Int) (buf : List Nat) (i fuel : Nat)
    (data d : List Nat) (e : Int) (hbuf : buf.length = 80)
    (h : os.recvStream i = .ok data) (hd : data.take 79 = d) (hp : d ≠ [])
    (hs : os.sendStream i = .error e) :
    echoLoop os cs buf i (fuel + 1) =
      ([Event.log .receiving, Event.callRecv cs 79,
          Event.log (.received d.length d),
          Event.log .sending, Event.callSend cs d,
          Event.raiseErr (os.strerror e)], LoopExit.failed) := by
  have hdl : d.length ≤ buf.length := by
    rw [hbuf, ← hd]
    exact le_trans (List.length_take_le _ _) (by norm_num)
  have htk : (bufAfter buf d).take d.length = d := bufAfter_take _ _ hdl
  simp [echoLoop, recv_pos_eq os i cs buf 80 data h (by simp [hd, hp]),
    send_error_eq os i cs (bufAfter buf d) d.length e hs,
    MAX_BUFFER_SIZE, hd, htk, hp]

theorem loop_send_zero_eq (os : OS) (cs : Int) (buf : List Nat) (i fuel : Nat)
    (data d : List Nat) (sc : Nat) (hbuf : buf.length = 80)
    (h : os.recvStream i = .ok data) (hd : data.take 79 = d) (hp : d ≠ [])
    (hs : os.sendStream i = .ok sc) (hm : min sc d.length = 0) :
    echoLoop os cs buf i (fuel + 1) =
      ([Event.log .receiving, Event.callRecv cs 79,
          Event.log (.received d.length d),
          Event.log .sending, Event.callSend cs d,
          Event.log .clientDisconnected], LoopExit.done) := by
  have hdl : d.length ≤ buf.length := by
    rw [hbuf, ← hd]
    exact le_trans (List.length_take_le _ _) (by norm_num)
  have htk : (bufAfter buf d).take d.length = d := bufAfter_take _ _ hdl
  have hz := send_zero_eq os i cs (bufAfter buf d) d.length sc hs
    (by rwa [htk])
  simp [echoLoop, recv_pos_eq os i cs buf 80 data h (by simp [hd, hp]),
    hz, MAX_BUFFER_SIZE, hd, htk, hp, hm]

theorem loop_step_eq (os : OS) (cs : Int) (buf : List Nat) (i fuel : Nat)
    (data d : List Nat) (sc : Nat) (hbuf : buf.length = 80)
    (h : os.recvStream i = .ok data) (hd : data.take 79 = d) (hp : d ≠ [])
    (hs : os.sendStream i = .ok sc) (hm : 0 < min sc d.length) :
    echoLoop os cs buf i (fuel + 1) =
      ([Event.log .receiving, Event.callRecv cs 79,
          Event.log (.received d.length d),
          Event.log .sending, Event.callSend cs d,
          Event.log (.sent (min sc d.length) d)] ++
        (echoLoop os cs (bufAfter buf d) (i + 1) fuel).1,
        (echoLoop os cs (bufAfter buf d) (i + 1) fuel).2) := by
  have hdl : d.length ≤ buf.length := by
    rw [hbuf, ← hd]
    exact le_trans (List.length_take_le _ _) (by norm_num)
  have htk : (bufAfter buf d).take d.length = d := bufAfter_take _ _ hdl
  have hpos := send_pos_eq os i cs (bufAfter buf d) d.length sc hs
    (by rwa [htk])
  have hmz : (sc : Int) ⊓ (d.length : Int) ≠ 0 := by
    have := hm.ne'
    exact_mod_cast this
  simp [echoLoop, recv_pos_eq os i cs buf 80 data h (by simp [hd, hp]),
    hpos, MAX_BUFFER_SIZE, hd, htk, hp, hmz]

theorem raiseCount_append (a b : List Event) :
    raiseCount (a ++ b) = raiseCount a + raiseCount b := by
  simp [raiseCount, List.filter_append]

theorem echoLoop_raises (os : OS) (cs : Int) :
    ∀ fuel buf i, buf.length = 80 →
      ((echoLoop os cs buf i fuel).2 = LoopExit.failed →
        ∃ e pre, (echoLoop os cs buf i fuel).1 =
            pre ++ [Event.raiseErr (os.strerror e)] ∧
          raiseCount (echoLoop os cs buf i fuel).1 = 1) ∧
      ((echoLoop os cs buf i fuel).2 ≠ LoopExit.failed →
        raiseCount (echoLoop os cs buf i fuel).1 = 0) := by
  intro fuel
  induction fuel with
  | zero =>
      intro buf i _
      refine ⟨fun h => ?_, fun _ => ?_⟩
      · simp [echoLoop] at h
      · simp [echoLoop, raiseCount]
  | succ n ih =>
      intro buf i hbuf
      cases h : os.recvStream i with
      | error e =>
          rw [loop_recv_error_eq os cs buf i n e h]
          refine ⟨fun _ => ?_, fun hne => ?_⟩
          · exact ⟨e, [Event.log .receiving, Event.callRecv cs 79], rfl,
              by simp [raiseCount, isRaise]⟩
          · simp at hne
      | ok data =>
          by_cases hz : data.take 79 = []
          · rw [loop_disconnect_eq os cs buf i n data h hz]
            refine ⟨fun hx => ?_, fun _ => ?_⟩
            · simp at hx
            · simp [raiseCount, isRaise]
          · cases hs : os.sendStream i with
            | error e2 =>
                rw [loop_send_error_eq os cs buf i n data _ e2 hbuf h rfl hz hs]
                refine ⟨fun _ => ?_, fun hne => ?_⟩
                · exact ⟨e2, [Event.log .receiving, Event.callRecv cs 79,
                    Event.log (.received (data.take 79).length (data.take 79)),
                    Event.log .sending, Event.callSend cs (data.take 79)], rfl,
                    by simp [raiseCount, isRaise]⟩
                · simp at hne
            | ok sc =>
                by_cases hm : min sc (data.take 79).length = 0
                · rw [loop_send_zero_eq os cs buf i n data _ sc hbuf h rfl hz hs hm]
                  refine ⟨fun hx => ?_, fun _ => ?_⟩
                  · simp at hx
                  · simp [raiseCount, isRaise]
                · rw [loop_step_eq os cs buf i n data _ sc hbuf h rfl hz hs
                    (Nat.pos_of_ne_zero hm)]
                  have ihh := ih (bufAfter buf (data.take 79)) (i + 1)
                    (by simp [bufAfter_length, hbuf])
                  have hev6 : raiseCount [Event.log LogMsg.receiving,
                      Event.callRecv cs 79,
                      Event.log (.received (data.take 79).length (data.take 79)),
                      Event.log .sending, Event.callSend cs (data.take 79),
                      Event.log (.sent (min sc (data.take 79).length)
                        (data.take 79))] = 0 := by
                    simp [raiseCount, isRaise]
                  refine ⟨fun hx => ?_, fun hne => ?_⟩
                  · obtain ⟨e, pre, hpre, hcount⟩ := ihh.1 (by simpa using hx)
                    have hpre0 : raiseCount pre = 0 := by
                      have h2 := hcount
                      rw [hpre, raiseCount_append] at h2
                      simpa [raiseCount, isRaise] using h2
                    refine ⟨e, [Event.log LogMsg.receiving, Event.callRecv cs 79,
                      Event.log (.received (data.take 79).length (data.take 79)),
                      Event.log .sending, Event.callSend cs (data.take 79),
                      Event.log (.sent (min sc (data.take 79).length)
                        (data.take 79))] ++ pre, ?_, ?_⟩
                    · simp only [hpre, List.append_assoc]
                    · simp only [hpre, ← List.append_assoc]
                      rw [raiseCount_append, raiseCount_append, hev6, hpre0]
                      simp [raiseCount, isRaise]
                  · show raiseCount ([Event.log LogMsg.receiving,
                      Event.callRecv cs 79,
                      Event.log (.received (data.take 79).length (data.take 79)),
                      Event.log .sending, Event.callSend cs (data.take 79),
                      Event.log (.sent (min sc (data.take 79).length)
                        (data.take 79))] ++
                      (echoLoop os cs (bufAfter buf (data.take 79))
                        (i + 1) n).1) = 0
                    rw [raiseCount_append, hev6, ihh.2 (by simpa using hne)]

theorem echoLoop_events_shape (os : OS) (cs : Int) :
    ∀ fuel buf i, buf.length = 80 → ∀ e ∈ (echoLoop os cs buf i fuel).1,
      (∃ m, e = Event.log m) ∨ (∃ s, e = Event.raiseErr s) ∨
      e = Event.callRecv cs 79 ∨ ∃ p, e = Event.callSend cs p := by
  intro fuel
  induction fuel with
  | zero => intro buf i _ e he; simp [echoLoop] at he
  | succ n ih =>
      intro buf i hbuf e he
      cases h : os.recvStream i with
      | error er =>
          rw [loop_recv_error_eq os cs buf i n er h] at he
          simp at he
          rcases he with rfl | rfl | rfl <;> simp
      | ok data =>
          by_cases hz : data.take 79 = []
          · rw [loop_disconnect_eq os cs buf i n data h hz] at he
            simp at he
            rcases he with rfl | rfl | rfl <;> simp
          · cases hs : os.sendStream i with
            | error e2 =>
                rw [loop_send_error_eq os cs buf i n data _ e2 hbuf h rfl hz hs]
                  at he
                simp at he
                rcases he with rfl | rfl | rfl | rfl | rfl | rfl <;> simp
            | ok sc =>
                by_cases hm : min sc (data.take 79).length = 0
                · rw [loop_send_zero_eq os cs buf i n data _ sc hbuf h rfl hz
                    hs hm] at he
                  simp at he
                  rcases he with rfl | rfl | rfl | rfl | rfl | rfl <;> simp
                · rw [loop_step_eq os cs buf i n data _ sc hbuf h rfl hz hs
                    (Nat.pos_of_ne_zero hm)] at he
                  simp at he
                  rcases he with rfl | rfl | rfl | rfl | rfl | rfl | hrest
                  · simp
                  · simp
                  · simp
                  · simp
                  · simp
                  · simp
                  · exact ih (bufAfter buf (data.take 79)) (i + 1)
                      (by simp [bufAfter_length, hbuf]) e hrest

theorem ioCalls_append (a b : List Event) :
    ioCalls (a ++ b) = ioCalls a ++ ioCalls b := by
  simp [ioCalls, List.filter_append]

theorem echoLoop_echoes (os : OS) (cs : Int) (C : Nat → List Nat) :
    ∀ n i buf fuel, buf.length = 80 →
      (∀ j, j < n → os.recvStream (i + j) = .ok (C (i + j))) →
      (∀ j, j < n → (C (i + j)).length ≤ 79) →
      (∀ j, j < n → C (i + j) ≠ []) →
      (∀ j, j < n →
        ∃ sc, os.sendStream (i + j) = .ok sc ∧ (C (i + j)).length ≤ sc) →
      os.recvStream (i + n) = .ok [] →
      n < fuel →
      ioCalls (echoLoop os cs buf i fuel).1 =
        (List.range n).flatMap
          (fun j => [Event.callRecv cs 79, Event.callSend cs (C (i + j))]) ++
          [Event.callRecv cs 79] ∧
      (echoLoop os cs buf i fuel).2 = LoopExit.done := by
  intro n
  induction n with
  | zero =>
      intro i buf fuel hbuf _ _ _ _ hend hfuel
      obtain ⟨f, rfl⟩ : ∃ f, fuel = f + 1 := ⟨fuel - 1, by omega⟩
      rw [loop_disconnect_eq os cs buf i f [] (by simpa using hend) rfl]
      simp [ioCalls, isIOCall]
  | succ m ihm =>
      intro i buf fuel hbuf hrecv hlen hne hsend hend hfuel
      obtain ⟨f, rfl⟩ : ∃ f, fuel = f + 1 := ⟨fuel - 1, by omega⟩
      have h0 : os.recvStream i = .ok (C i) := by
        have := hrecv 0 (by omega)
        simpa using this
      have hl0 : (C i).length ≤ 79 := by
        have := hlen 0 (by omega)
        simpa using this
      have hn0 : C i ≠ [] := by
        have := hne 0 (by omega)
        simpa using this
      obtain ⟨sc, hsc, hscl⟩ : ∃ sc, os.sendStream i = .ok sc ∧
          (C i).length ≤ sc := by
        have := hsend 0 (by omega)
        simpa using this
      have htake : (C i).take 79 = C i := List.take_of_length_le hl0
      have hmp : 0 < min sc (C i).length := by
        rw [min_eq_right hscl]
        exact List.length_pos.2 hn0
      rw [loop_step_eq os cs buf i f (C i) (C i) sc hbuf h0 htake hn0 hsc hmp]
      have ihh := ihm (i + 1) (bufAfter buf (C i)) f
        (by simp [bufAfter_length, hbuf])
        (fun j hj => by
          have := hrecv (j + 1) (by omega)
          rwa [show i + (j + 1) = i + 1 + j by omega] at this)
        (fun j hj => by
          have := hlen (j + 1) (by omega)
          rwa [show i + (j + 1) = i + 1 + j by omega] at this)
        (fun j hj => by
          have := hne (j + 1) (by omega)
          rwa [show i + (j + 1) = i + 1 + j by omega] at this)
        (fun j hj => by
          have := hsend (j + 1) (by omega)
          rwa [show i + (j + 1) = i + 1 + j by omega] at this)
        (by
          have := hend
          rwa [show i + (m + 1) = i + 1 + m by omega] at this)
        (by omega)
      constructor
      · have hcalls : ioCalls [Event.log LogMsg.receiving,
            Event.callRecv cs 79,
            Event.log (.received (C i).length (C i)),
            Event.log .sending, Event.callSend cs (C i),
            Event.log (.sent (min sc (C i).length) (C i))] =
            [Event.callRecv cs 79, Event.callSend cs (C i)] := by
          simp [ioCalls, isIOCall]
        show ioCalls (_ ++ (echoLoop os cs (bufAfter buf (C i))
          (i + 1) f).1) = _
        rw [ioCalls_append, ihh.1, hcalls]
        rw [List.range_succ_eq_map]
        simp only [List.flatMap_cons, List.flatMap_map, Nat.add_zero,
          Nat.succ_eq_add_one]
        have hfun : (fun j => [Event.callRecv cs 79,
            Event.callSend cs (C (i + 1 + j))]) =
            (fun j => [Event.callRecv cs 79,
              Event.callSend cs (C (i + (j + 1)))]) := by
          funext j
          have hj : i + 1 + j = i + (j + 1) := by omega
          rw [hj]
        rw [hfun]
        simp [List.append_assoc]
      · exact ihh.2

theorem echoLoop_no_lifecycle (os : OS) (cs : Int) (fuel : Nat)
    (buf : List Nat) (i : Nat) (hbuf : buf.length = 80) :
    List.filterMap stepTag (echoLoop os cs buf i fuel).1 = [] := by
  rw [List.filterMap_eq_nil_iff]
  intro e he
  rcases echoLoop_events_shape os cs fuel buf i hbuf e he with
    ⟨m, rfl⟩ | ⟨s, rfl⟩ | rfl | ⟨p, rfl⟩ <;> rfl

theorem stepTags_ite_close (c : Prop) [Decidable c] (sd : Int) :
    List.filterMap stepTag (if c then [Event.callClose sd] else []) = [] := by
  split <;> simp [stepTag]

theorem server_lifecycle (os : OS) (port : Int) (fuel : Nat) :
    lifecycleTags (nativeStartTcpServer os port fuel) =
      specLifecycleTags os port := by
  have hrep : (List.replicate MAX_BUFFER_SIZE 0).length = 80 := by
    simp [MAX_BUFFER_SIZE]
  cases hsock : os.socketRes with
  | error e =>
      simp [nativeStartTcpServer, NewTcpSocket, hsock, ThrowErrnoException,
        lifecycleTags, stepTag, specLifecycleTags]
  | ok sd =>
      cases hbind : os.bindRes with
      | error e =>
          simp [nativeStartTcpServer, NewTcpSocket, BindSocketToPort, hsock,
            hbind, ThrowErrnoException, lifecycleTags, List.filterMap_append,
            stepTag, specLifecycleTags, stepTags_ite_close]
      | ok u =>
          by_cases hport : port = 0
          · cases hgs : os.getsocknameRes with
            | error e =>
                simp [nativeStartTcpServer, NewTcpSocket, BindSocketToPort,
                  GetSocketPort, hsock, hbind, hgs, hport, ThrowErrnoException,
                  lifecycleTags, List.filterMap_append, stepTag,
                  specLifecycleTags, stepTags_ite_close]
            | ok p =>
                cases hlis : os.listenRes with
                | error e =>
                    simp [nativeStartTcpServer, NewTcpSocket, BindSocketToPort,
                      GetSocketPort, ListenOnSocket, hsock, hbind, hgs, hport,
                      hlis, ThrowErrnoException, lifecycleTags,
                      List.filterMap_append, stepTag, specLifecycleTags,
                      stepTags_ite_close]
                | ok v =>
                    cases hacc : os.acceptRes with
                    | error e =>
                        simp [nativeStartTcpServer, NewTcpSocket,
                          BindSocketToPort, GetSocketPort, ListenOnSocket,
                          AcceptOnSocket, hsock, hbind, hgs, hport, hlis, hacc,
                          ThrowErrnoException, lifecycleTags,
                          List.filterMap_append, stepTag, specLifecycleTags,
                          stepTags_ite_close]
                    | ok cs =>
                        cases hntop : os.ntopRes with
                        | error e =>
                            simp [nativeStartTcpServer, NewTcpSocket,
                              BindSocketToPort, GetSocketPort, ListenOnSocket,
                              AcceptOnSocket, LogAddress, hsock, hbind, hgs,
                              hport, hlis, hacc, hntop, ThrowErrnoException,
                              lifecycleTags, List.filterMap_append, stepTag,
                              specLifecycleTags, stepTags_ite_close]
                        | ok ip =>
                            simp [nativeStartTcpServer, NewTcpSocket,
                              BindSocketToPort, GetSocketPort, ListenOnSocket,
                              AcceptOnSocket, LogAddress, hsock, hbind, hgs,
                              hport, hlis, hacc, hntop, ThrowErrnoException,
                              lifecycleTags, List.filterMap_append, stepTag,
                              specLifecycleTags, stepTags_ite_close,
                              echoLoop_no_lifecycle os cs fuel _ 0 hrep]
          · cases hlis : os.listenRes with
            | error e =>
                simp [nativeStartTcpServer, NewTcpSocket, BindSocketToPort,
                  ListenOnSocket, hsock, hbind, hport, hlis,
                  ThrowErrnoException, lifecycleTags, List.filterMap_append,
                  stepTag, specLifecycleTags, stepTags_ite_close]
            | ok v =>
                cases hacc : os.acceptRes with
                | error e =>
                    simp [nativeStartTcpServer, NewTcpSocket, BindSocketToPort,
                      ListenOnSocket, AcceptOnSocket, hsock, hbind, hport,
                      hlis, hacc, ThrowErrnoException, lifecycleTags,
                      List.filterMap_append, stepTag, specLifecycleTags,
                      stepTags_ite_close]
                | ok cs =>
                    cases hntop : os.ntopRes with
                    | error e =>
                        simp [nativeStartTcpServer, NewTcpSocket,
                          BindSocketToPort, ListenOnSocket, AcceptOnSocket,
                          LogAddress, hsock, hbind, hport, hlis, hacc, hntop,
                          ThrowErrnoException, lifecycleTags,
                          List.filterMap_append, stepTag, specLifecycleTags,
                          stepTags_ite_close]
                    | ok ip =>
                        simp [nativeStartTcpServer, NewTcpSocket,
                          BindSocketToPort, ListenOnSocket, AcceptOnSocket,
                          LogAddress, hsock, hbind, hport, hlis, hacc, hntop,
                          ThrowErrnoException, lifecycleTags,
                          List.filterMap_append, stepTag, specLifecycleTags,
                          stepTags_ite_close,
                          echoLoop_no_lifecycle os cs fuel _ 0 hrep]

theorem server_closes_listener (os : OS) (port : Int) (fuel : Nat) (sd : Int)
    (hsock : os.socketRes = .ok sd) (hsd : 0 < sd) :
    Event.callClose sd ∈ nativeStartTcpServer os port fuel := by
  simp only [nativeStartTcpServer, NewTcpSocket, hsock]
  rw [if_pos hsd]
  simp

theorem server_bind_attempted (os : OS) (port : Int) (fuel : Nat) (sd : Int)
    (hsock : os.socketRes = .ok sd) :
    Event.callBind sd (port % 65536).toNat ∈
      nativeStartTcpServer os port fuel := by
  simp only [nativeStartTcpServer, NewTcpSocket, hsock]
  cases hbind : os.bindRes with
  | error e =>
      simp [BindSocketToPort, hbind, ThrowErrnoException]
  | ok u =>
      simp only [BindSocketToPort, hbind]
      split_ifs <;> simp_all

theorem server_trace_gsfail (os : OS) (fuel : Nat) (sd : Int) (e : Int)
    (hsock : os.socketRes = .ok sd) (hbind : os.bindRes = .ok ())
    (hgs : os.getsocknameRes = .error e) :
    nativeStartTcpServer os 0 fuel =
      [Event.log .constructing, Event.callSocket, Event.log (.bindingTo 0),
        Event.callBind sd 0, Event.callGetsockname sd,
        Event.raiseErr (os.strerror e)] ++
      (if sd > 0 then [Event.callClose sd] else []) := by
  simp [nativeStartTcpServer, NewTcpSocket, BindSocketToPort, GetSocketPort,
    hsock, hbind, hgs, ThrowErrnoException]

theorem mem_close_ite (e : Event) (c : Prop) [Decidable c] (sd : Int) :
    e ∈ (if c then [Event.callClose sd] else []) ↔
      (c ∧ e = Event.callClose sd) := by
  split <;> simp_all

theorem echoLoop_no_getsockname (os : OS) (cs : Int) (fuel : Nat)
    (buf : List Nat) (i : Nat) (hbuf : buf.length = 80) (x : Int) :
    Event.callGetsockname x ∉ (echoLoop os cs buf i fuel).1 := by
  intro hmem
  rcases echoLoop_events_shape os cs fuel buf i hbuf _ hmem with
    ⟨m, h⟩ | ⟨s, h⟩ | h | ⟨p, h⟩ <;> simp at h

theorem server_closes_client (os : OS) (port : Int) (fuel : Nat)
    (sd cs : Int) (ip : String)
    (hsock : os.socketRes = .ok sd) (hbind : os.bindRes = .ok ())
    (hgs : port = 0 → ∃ p, os.getsocknameRes = .ok p)
    (hlis : os.listenRes = .ok ()) (hacc : os.acceptRes = .ok cs)
    (hntop : os.ntopRes = .ok ip) :
    Event.callClose cs ∈ nativeStartTcpServer os port fuel := by
  by_cases hport : port = 0
  · obtain ⟨p, hp⟩ := hgs hport
    simp [nativeStartTcpServer, NewTcpSocket, BindSocketToPort, GetSocketPort,
      ListenOnSocket, AcceptOnSocket, LogAddress, hsock, hbind, hp, hport,
      hlis, hacc, hntop]
  · simp [nativeStartTcpServer, NewTcpSocket, BindSocketToPort,
      ListenOnSocket, AcceptOnSocket, LogAddress, hsock, hbind, hport,
      hlis, hacc, hntop]

theorem server_no_getsockname (os : OS) (port : Int) (fuel : Nat)
    (hport : port ≠ 0) (x : Int) :
    Event.callGetsockname x ∉ nativeStartTcpServer os port fuel := by
  have hrep : (List.replicate MAX_BUFFER_SIZE 0).length = 80 := by
    simp [MAX_BUFFER_SIZE]
  cases hsock : os.socketRes with
  | error e =>
      simp [nativeStartTcpServer, NewTcpSocket, hsock, ThrowErrnoException]
  | ok sd =>
      cases hbind : os.bindRes with
      | error e =>
          simp [nativeStartTcpServer, NewTcpSocket, BindSocketToPort, hsock,
            hbind, ThrowErrnoException, mem_close_ite]
      | ok u =>
          cases hlis : os.listenRes with
          | error e =>
              simp [nativeStartTcpServer, NewTcpSocket, BindSocketToPort,
                ListenOnSocket, hsock, hbind, hport, hlis,
                ThrowErrnoException, mem_close_ite]
          | ok v =>
              cases hacc : os.acceptRes with
              | error e =>
                  simp [nativeStartTcpServer, NewTcpSocket, BindSocketToPort,
                    ListenOnSocket, AcceptOnSocket, hsock, hbind, hport, hlis,
                    hacc, ThrowErrnoException, mem_close_ite]
              | ok cs =>
                  cases hntop : os.ntopRes with
                  | error e =>
                      simp [nativeStartTcpServer, NewTcpSocket,
                        BindSocketToPort, ListenOnSocket, AcceptOnSocket,
                        LogAddress, hsock, hbind, hport, hlis, hacc, hntop,
                        ThrowErrnoException, mem_close_ite]
                  | ok ip =>
                      simp [nativeStartTcpServer, NewTcpSocket,
                        BindSocketToPort, ListenOnSocket, AcceptOnSocket,
                        LogAddress, hsock, hbind, hport, hlis, hacc, hntop,
                        ThrowErrnoException, mem_close_ite,
                        echoLoop_no_getsockname os cs fuel _ 0 hrep x]

theorem server_getsockname_present (os : OS) (fuel : Nat) (sd : Int)
    (hsock : os.socketRes = .ok sd) (hbind : os.bindRes = .ok ()) :
    Event.callGetsockname sd ∈ nativeStartTcpServer os 0 fuel := by
  cases hgs : os.getsocknameRes with
  | error e =>
      simp [nativeStartTcpServer, NewTcpSocket, BindSocketToPort,
        GetSocketPort, hsock, hbind, hgs, ThrowErrnoException]
  | ok p =>
      simp only [nativeStartTcpServer, NewTcpSocket, BindSocketToPort,
        GetSocketPort, hsock, hbind, hgs]
      split_ifs <;> simp_all

theorem echoLoop_starts_receiving (os : OS) (cs : Int) (buf : List Nat)
    (i fuel : Nat) (hbuf : buf.length = 80) :
    ∃ t, (echoLoop os cs buf i (fuel + 1)).1 =
      Event.log .receiving :: Event.callRecv cs 79 :: t := by
  cases h : os.recvStream i with
  | error e => exact ⟨_, by rw [loop_recv_error_eq os cs buf i fuel e h]⟩
  | ok data =>
      by_cases hz : data.take 79 = []
      · exact ⟨_, by rw [loop_disconnect_eq os cs buf i fuel data h hz]⟩
      · cases hs : os.sendStream i with
        | error e2 =>
            exact ⟨_, by
              rw [loop_send_error_eq os cs buf i fuel data _ e2 hbuf h rfl hz
                hs]⟩
        | ok sc =>
            by_cases hm : min sc (data.take 79).length = 0
            · exact ⟨_, by
                rw [loop_send_zero_eq os cs buf i fuel data _ sc hbuf h rfl hz
                  hs hm]⟩
            · exact ⟨[Event.log (.received (data.take 79).length
                  (data.take 79)), Event.log .sending,
                  Event.callSend cs (data.take 79),
                  Event.log (.sent (min sc (data.take 79).length)
                    (data.take 79))] ++
                (echoLoop os cs (bufAfter buf (data.take 79))
                  (i + 1) fuel).1, by
                rw [loop_step_eq os cs buf i fuel data _ sc hbuf h rfl hz hs
                  (Nat.pos_of_ne_zero hm)]
                exact rfl⟩

theorem server_recv_gated (os : OS) (port : Int) (fuel : Nat) (x : Int)
    (n : Nat) (hmem : Event.callRecv x n ∈ nativeStartTcpServer os port fuel) :
    (∃ sd, os.socketRes = .ok sd) ∧ (∃ u, os.bindRes = .ok u) ∧
    (port = 0 → ∃ p, os.getsocknameRes = .ok p) ∧
    (∃ v, os.listenRes = .ok v) ∧ (∃ c, os.acceptRes = .ok c) ∧
    (∃ s, os.ntopRes = .ok s) := by
  cases hsock : os.socketRes with
  | error e =>
      simp [nativeStartTcpServer, NewTcpSocket, hsock,
        ThrowErrnoException] at hmem
  | ok sd =>
      cases hbind : os.bindRes with
      | error e =>
          simp [nativeStartTcpServer, NewTcpSocket, BindSocketToPort, hsock,
            hbind, ThrowErrnoException, mem_close_ite] at hmem
      | ok u =>
          by_cases hport : port = 0
          · cases hgs : os.getsocknameRes with
            | error e =>
                simp [nativeStartTcpServer, NewTcpSocket, BindSocketToPort,
                  GetSocketPort, hsock, hbind, hgs, hport,
                  ThrowErrnoException, mem_close_ite] at hmem
            | ok p =>
                cases hlis : os.listenRes with
                | error e =>
                    simp [nativeStartTcpServer, NewTcpSocket, BindSocketToPort,
                      GetSocketPort, ListenOnSocket, hsock, hbind, hgs, hport,
                      hlis, ThrowErrnoException, mem_close_ite] at hmem
                | ok v =>
                    cases hacc : os.acceptRes with
                    | error e =>
                        simp [nativeStartTcpServer, NewTcpSocket,
                          BindSocketToPort, GetSocketPort, ListenOnSocket,
                          AcceptOnSocket, hsock, hbind, hgs, hport, hlis, hacc,
                          ThrowErrnoException, mem_close_ite] at hmem
                    | ok cs =>
                        cases hntop : os.ntopRes with
                        | error e =>
                            simp [nativeStartTcpServer, NewTcpSocket,
                              BindSocketToPort, GetSocketPort, ListenOnSocket,
                              AcceptOnSocket, LogAddress, hsock, hbind, hgs,
                              hport, hlis, hacc, hntop, ThrowErrnoException,
                              mem_close_ite] at hmem
                        | ok ip =>
                            exact ⟨⟨sd, rfl⟩, ⟨u, rfl⟩,
                              fun _ => ⟨p, rfl⟩, ⟨v, rfl⟩, ⟨cs, rfl⟩,
                              ⟨ip, rfl⟩⟩
          · cases hlis : os.listenRes with
            | error e =>
                simp [nativeStartTcpServer, NewTcpSocket, BindSocketToPort,
                  ListenOnSocket, hsock, hbind, hport, hlis,
                  ThrowErrnoException, mem_close_ite] at hmem
            | ok v =>
                cases hacc : os.acceptRes with
                | error e =>
                    simp [nativeStartTcpServer, NewTcpSocket, BindSocketToPort,
                      ListenOnSocket, AcceptOnSocket, hsock, hbind, hport,
                      hlis, hacc, ThrowErrnoException, mem_close_ite] at hmem
                | ok cs =>
                    cases hntop : os.ntopRes with
                    | error e =>
                        simp [nativeStartTcpServer, NewTcpSocket,
                          BindSocketToPort, ListenOnSocket, AcceptOnSocket,
                          LogAddress, hsock, hbind, hport, hlis, hacc, hntop,
                          ThrowErrnoException, mem_close_ite] at hmem
                    | ok ip =>
                        exact ⟨⟨sd, rfl⟩, ⟨u, rfl⟩,
                          fun h => absurd h hport, ⟨v, rfl⟩, ⟨cs, rfl⟩,
                          ⟨ip, rfl⟩⟩

theorem server_recv_always_79 (os : OS) (port : Int) (fuel : Nat) (x : Int)
    (n : Nat) (hmem : Event.callRecv x n ∈ nativeStartTcpServer os port fuel) :
    n = 79 := by
  have hrep : (List.replicate MAX_BUFFER_SIZE 0).length = 80 := by
    simp [MAX_BUFFER_SIZE]
  cases hsock : os.socketRes with
  | error e =>
      simp [nativeStartTcpServer, NewTcpSocket, hsock,
        ThrowErrnoException] at hmem
  | ok sd =>
      cases hbind : os.bindRes with
      | error e =>
          simp [nativeStartTcpServer, NewTcpSocket, BindSocketToPort, hsock,
            hbind, ThrowErrnoException, mem_close_ite] at hmem
      | ok u =>
          by_cases hport : port = 0
          · cases hgs : os.getsocknameRes with
            | error e =>
                simp [nativeStartTcpServer, NewTcpSocket, BindSocketToPort,
                  GetSocketPort, hsock, hbind, hgs, hport,
                  ThrowErrnoException, mem_close_ite] at hmem
            | ok p =>
                cases hlis : os.listenRes with
                | error e =>
                    simp [nativeStartTcpServer, NewTcpSocket, BindSocketToPort,
                      GetSocketPort, ListenOnSocket, hsock, hbind, hgs, hport,
                      hlis, ThrowErrnoException, mem_close_ite] at hmem
                | ok v =>
                    cases hacc : os.acceptRes with
                    | error e =>
                        simp [nativeStartTcpServer, NewTcpSocket,
                          BindSocketToPort, GetSocketPort, ListenOnSocket,
                          AcceptOnSocket, hsock, hbind, hgs, hport, hlis, hacc,
                          ThrowErrnoException, mem_close_ite] at hmem
                    | ok cs =>
                        cases hntop : os.ntopRes with
                        | error e =>
                            simp [nativeStartTcpServer, NewTcpSocket,
                              BindSocketToPort, GetSocketPort, ListenOnSocket,
                              AcceptOnSocket, LogAddress, hsock, hbind, hgs,
                              hport, hlis, hacc, hntop, ThrowErrnoException,
                              mem_close_ite] at hmem
                        | ok ip =>
                            simp [nativeStartTcpServer, NewTcpSocket,
                              BindSocketToPort, GetSocketPort, ListenOnSocket,
                              AcceptOnSocket, LogAddress, hsock, hbind, hgs,
                              hport, hlis, hacc, hntop, ThrowErrnoException,
                              mem_close_ite] at hmem
                            rcases echoLoop_events_shape os cs fuel
                              (List.replicate MAX_BUFFER_SIZE 0) 0 hrep _ hmem
                              with ⟨m, h⟩ | ⟨s, h⟩ | h | ⟨p2, h⟩ <;>
                              simp at h
                            exact h.2
          · cases hlis : os.listenRes with
            | error e =>
                simp [nativeStartTcpServer, NewTcpSocket, BindSocketToPort,
                  ListenOnSocket, hsock, hbind, hport, hlis,
                  ThrowErrnoException, mem_close_ite] at hmem
            | ok v =>
                cases hacc : os.acceptRes with
                | error e =>
                    simp [nativeStartTcpServer, NewTcpSocket, BindSocketToPort,
                      ListenOnSocket, AcceptOnSocket, hsock, hbind, hport,
                      hlis, hacc, ThrowErrnoException, mem_close_ite] at hmem
                | ok cs =>
                    cases hntop : os.ntopRes with
                    | error e =>
                        simp [nativeStartTcpServer, NewTcpSocket,
                          BindSocketToPort, ListenOnSocket, AcceptOnSocket,
                          LogAddress, hsock, hbind, hport, hlis, hacc, hntop,
                          ThrowErrnoException, mem_close_ite] at hmem
                    | ok ip =>
                        simp [nativeStartTcpServer, NewTcpSocket,
                          BindSocketToPort, ListenOnSocket, AcceptOnSocket,
                          LogAddress, hsock, hbind, hport, hlis, hacc, hntop,
                          ThrowErrnoException, mem_close_ite] at hmem
                        rcases echoLoop_events_shape os cs fuel
                          (List.replicate MAX_BUFFER_SIZE 0) 0 hrep _ hmem
                          with ⟨m, h⟩ | ⟨s, h⟩ | h | ⟨p2, h⟩ <;>
                          simp at h
                        exact h.2

theorem client_ok_eq (os : OS) (ip : String) (port : Int) (message : String)
    (sd : Int) (hsock : os.socketRes = .ok sd) :
    nativeStartTcpClient os ip port message =
      [Event.log .constructing, Event.callSocket, Event.callClose sd] := by
  simp [nativeStartTcpClient, NewTcpSocket, hsock]

theorem client_error_eq (os : OS) (ip : String) (port : Int)
    (message : String) (e : Int) (hsock : os.socketRes = .error e) :
    nativeStartTcpClient os ip port message =
      [Event.log .constructing, Event.callSocket,
        Event.raiseErr (os.strerror e)] := by
  simp [nativeStartTcpClient, NewTcpSocket, hsock, ThrowErrnoException]

/-- C1 counterexample: with every syscall succeeding except the `inet_ntop`
conversion of the peer address (after a successful accept returning
descriptor 4), the server run never closes the accepted descriptor 4 — the
`goto exit` taken on the pending exception skips `close(clientSocket)` — even
though the accept call happened and the listening descriptor 3 is closed. -/
theorem C1_counterexample :
    osNtopFail.acceptRes = Except.ok 4 ∧
    Event.callAccept 3 ∈ nativeStartTcpServer osNtopFail 5000 8 ∧
    Event.callClose 4 ∉ nativeStartTcpServer osNtopFail 5000 8 ∧
    Event.callClose 3 ∈ nativeStartTcpServer osNtopFail 5000 8 :=
  ⟨rfl, by decide, by decide, by decide⟩

/-- C1 (amended): the listening descriptor is closed on every exit path on
which it was obtained with a positive value, and the accepted descriptor is
closed whenever the run reaches the echo phase (accept succeeded and the peer
address conversion succeeded); when the conversion fails after a successful
accept, the accepted descriptor is leaked (see the counterexample). -/
theorem C1_amended_closures (os : OS) (port : Int) (fuel : Nat) :
    (∀ sd, os.socketRes = .ok sd → 0 < sd →
      Event.callClose sd ∈ nativeStartTcpServer os port fuel) ∧
    (∀ sd cs ip, os.socketRes = .ok sd → os.bindRes = .ok () →
      (port = 0 → ∃ p, os.getsocknameRes = .ok p) →
      os.listenRes = .ok () → os.acceptRes = .ok cs → os.ntopRes = .ok ip →
      Event.callClose cs ∈ nativeStartTcpServer os port fuel) :=
  ⟨fun sd h1 h2 => server_closes_listener os port fuel sd h1 h2,
   fun sd cs ip h1 h2 h3 h4 h5 h6 =>
     server_closes_client os port fuel sd cs ip h1 h2 h3 h4 h5 h6⟩

/-- Witness for C1 (amended) at the all-success oracle: both the listening
descriptor 3 and the accepted descriptor 4 are closed. -/
theorem C1_amended_witness :
    Event.callClose 3 ∈ nativeStartTcpServer osBase 5000 8 ∧
    Event.callClose 4 ∈ nativeStartTcpServer osBase 5000 8 :=
  ⟨(C1_amended_closures osBase 5000 8).1 3 rfl (by decide),
   (C1_amended_closures osBase 5000 8).2 3 4 "10.0.0.1" rfl rfl
     (fun h => absurd h (by decide)) rfl rfl rfl⟩

/-- C2: for any accepted connection and chunks `C 0 … C (n-1)` (each nonempty,
at most 79 bytes, delivered whole by the i-th receive, accepted whole by the
i-th send), the echo loop's receive/send syscalls strictly alternate
receive, send of exactly that chunk, receive, …, ending with the final
zero receive, and the loop ends in DONE. -/
theorem C2_echo_alternation (os : OS) (cs : Int) (C : Nat → List Nat)
    (n fuel : Nat)
    (hrecv : ∀ j, j < n → os.recvStream j = .ok (C j))
    (hlen : ∀ j, j < n → (C j).length ≤ 79)
    (hne : ∀ j, j < n → C j ≠ [])
    (hsend : ∀ j, j < n → ∃ sc, os.sendStream j = .ok sc ∧ (C j).length ≤ sc)
    (hend : os.recvStream n = .ok [])
    (hfuel : n < fuel) :
    ioCalls (echoLoop os cs (List.replicate MAX_BUFFER_SIZE 0) 0 fuel).1 =
      (List.range n).flatMap
        (fun j => [Event.callRecv cs 79, Event.callSend cs (C j)]) ++
      [Event.callRecv cs 79] ∧
    (echoLoop os cs (List.replicate MAX_BUFFER_SIZE 0) 0 fuel).2 =
      LoopExit.done := by
  have h := echoLoop_echoes os cs C n 0 (List.replicate MAX_BUFFER_SIZE 0)
    fuel (by simp [MAX_BUFFER_SIZE])
    (fun j hj => by simpa using hrecv j hj)
    (fun j hj => by simpa using hlen j hj)
    (fun j hj => by simpa using hne j hj)
    (fun j hj => by simpa using hsend j hj)
    (by simpa using hend) hfuel
  simpa using h

/-- Witness for C2: the client sends "ping" once and disconnects; the loop's
syscalls are receive, send of exactly "ping", receive, and the loop ends in
DONE. -/
theorem C2_witness :
    ioCalls (echoLoop osBase 4 (List.replicate MAX_BUFFER_SIZE 0) 0 8).1 =
      [Event.callRecv 4 79, Event.callSend 4 [112, 105, 110, 103],
        Event.callRecv 4 79] ∧
    (echoLoop osBase 4 (List.replicate MAX_BUFFER_SIZE 0) 0 8).2 =
      LoopExit.done := by
  have h := C2_echo_alternation osBase 4 (fun _ => [112, 105, 110, 103]) 1 8
    (by decide) (by decide) (by decide)
    (fun j hj => ⟨100, rfl, by norm_num⟩) rfl (by decide)
  simpa using h

/-- C3: a failing receive or send syscall makes the echo loop terminate with
exactly one raised I/O error; the raised message is the platform text for the
error number and is non-empty (whenever the platform's strerror is), the
error event is the last event of the loop trace (so no receive or send is
attempted after the failure), and a run that did not fail raises nothing.
The last two conjuncts exhibit the failing transitions at the start of an
iteration. -/
theorem C3_failure_single_error (os : OS) (cs : Int) (buf : List Nat)
    (i fuel : Nat) (hbuf : buf.length = 80)
    (hmsg : ∀ e, os.strerror e ≠ "") :
    ((echoLoop os cs buf i fuel).2 = LoopExit.failed →
      ∃ e pre, (echoLoop os cs buf i fuel).1 =
          pre ++ [Event.raiseErr (os.strerror e)] ∧
        raiseCount (echoLoop os cs buf i fuel).1 = 1 ∧
        os.strerror e ≠ "") ∧
    ((echoLoop os cs buf i fuel).2 ≠ LoopExit.failed →
      raiseCount (echoLoop os cs buf i fuel).1 = 0) ∧
    (∀ e, os.recvStream i = .error e →
      echoLoop os cs buf i (fuel + 1) =
        ([Event.log .receiving, Event.callRecv cs 79,
          Event.raiseErr (os.strerror e)], LoopExit.failed)) ∧
    (∀ data e, os.recvStream i = .ok data → data.take 79 ≠ [] →
      os.sendStream i = .error e →
      echoLoop os cs buf i (fuel + 1) =
        ([Event.log .receiving, Event.callRecv cs 79,
          Event.log (.received (data.take 79).length (data.take 79)),
          Event.log .sending, Event.callSend cs (data.take 79),
          Event.raiseErr (os.strerror e)], LoopExit.failed)) := by
  refine ⟨fun hf => ?_, fun hn => (echoLoop_raises os cs fuel buf i hbuf).2 hn,
    fun e he => loop_recv_error_eq os cs buf i fuel e he,
    fun data e h1 h2 h3 =>
      loop_send_error_eq os cs buf i fuel data _ e hbuf h1 rfl h2 h3⟩
  obtain ⟨e, pre, h1, h2⟩ := (echoLoop_raises os cs fuel buf i hbuf).1 hf
  exact ⟨e, pre, h1, h2, hmsg e⟩

/-- Witness for C3: with the first receive failing, the loop run of fuel 1
ends FAILED with the single raised error as its last event. -/
theorem C3_witness :
    (echoLoop osRecvFail 4 (List.replicate MAX_BUFFER_SIZE 0) 0 1).2 =
      LoopExit.failed ∧
    raiseCount (echoLoop osRecvFail 4
      (List.replicate MAX_BUFFER_SIZE 0) 0 1).1 = 1 := by
  obtain ⟨e, pre, htr, hc, hne⟩ :=
    (C3_failure_single_error osRecvFail 4 (List.replicate MAX_BUFFER_SIZE 0)
      0 1 (by decide)
      (fun _ => (by decide : ("Connection reset by peer" : String) ≠ ""))).1
      (by decide)
  exact ⟨by decide, hc⟩

/-- C4: a zero-length receive (client disconnect) ends the echo loop
immediately: the iteration's trace is exactly the receive attempt followed by
the "Client disconnected." log, the loop exits DONE, nothing is raised, no
send is performed, and the empty receive is never logged as received data. -/
theorem C4_disconnect (os : OS) (cs : Int) (buf : List Nat) (i fuel : Nat)
    (h : os.recvStream i = .ok []) :
    echoLoop os cs buf i (fuel + 1) =
      ([Event.log .receiving, Event.callRecv cs 79,
        Event.log .clientDisconnected], LoopExit.done) ∧
    raiseCount (echoLoop os cs buf i (fuel + 1)).1 = 0 ∧
    (∀ x p, Event.callSend x p ∉ (echoLoop os cs buf i (fuel + 1)).1) ∧
    (∀ k c, Event.log (.received k c) ∉ (echoLoop os cs buf i (fuel + 1)).1)
    := by
  have heq := loop_disconnect_eq os cs buf i fuel [] h rfl
  refine ⟨heq, ?_, ?_, ?_⟩
  · rw [heq]
    simp [raiseCount, isRaise]
  · intro x p
    rw [heq]
    simp
  · intro k c
    rw [heq]
    simp

/-- Witness for C4 at a concrete oracle whose first receive is empty. -/
theorem C4_witness :
    echoLoop osDisconnect 4 (List.replicate MAX_BUFFER_SIZE 0) 0 1 =
      ([Event.log .receiving, Event.callRecv 4 79,
        Event.log .clientDisconnected], LoopExit.done) :=
  (C4_disconnect osDisconnect 4 (List.replicate MAX_BUFFER_SIZE 0) 0 0
    rfl).1

/-- C5 counterexample: with the peer-address conversion failing after a
successful accept (descriptor 7, listening descriptor 5), the accept step
executed and acquired the descriptor, failure was signalled at that step, yet
the cleanup does not close the acquired accepted descriptor. -/
theorem C5_counterexample :
    osNtopFail2.acceptRes = Except.ok 7 ∧
    Event.callAccept 5 ∈ nativeStartTcpServer osNtopFail2 6000 8 ∧
    Event.callClose 7 ∉ nativeStartTcpServer osNtopFail2 6000 8 :=
  ⟨rfl, by decide, by decide⟩

/-- C5 (amended): the lifecycle syscalls of every server run are exactly the
spec-side linear sequence Factory, Bind, optional Discover (iff port = 0),
Listen, Accept, cut immediately after the first step whose syscall fails; the
echo loop performs a receive only if every lifecycle step (including the
peer-address conversion) succeeded; and cleanup of the listening descriptor
still runs on every path on which it was obtained positive. (The accepted
descriptor's cleanup is NOT unconditional: see the counterexample.) -/
theorem C5_amended_lifecycle (os : OS) (port : Int) (fuel : Nat) :
    lifecycleTags (nativeStartTcpServer os port fuel) =
      specLifecycleTags os port ∧
    (∀ x n, Event.callRecv x n ∈ nativeStartTcpServer os port fuel →
      (∃ sd, os.socketRes = .ok sd) ∧ (∃ u, os.bindRes = .ok u) ∧
      (port = 0 → ∃ p, os.getsocknameRes = .ok p) ∧
      (∃ v, os.listenRes = .ok v) ∧ (∃ c, os.acceptRes = .ok c) ∧
      (∃ s, os.ntopRes = .ok s)) ∧
    (∀ sd, os.socketRes = .ok sd → 0 < sd →
      Event.callClose sd ∈ nativeStartTcpServer os port fuel) :=
  ⟨server_lifecycle os port fuel,
   fun x n h => server_recv_gated os port fuel x n h,
   fun sd h1 h2 => server_closes_listener os port fuel sd h1 h2⟩

/-- Witness for C5 (amended): with a failing port discovery the run performs
exactly Factory, Bind, Discover and still closes the listening descriptor. -/
theorem C5_witness :
    lifecycleTags (nativeStartTcpServer osGetsockFail 0 8) =
      [StepTag.socket, StepTag.bind, StepTag.getsock] ∧
    Event.callClose 3 ∈ nativeStartTcpServer osGetsockFail 0 8 :=
  ⟨by rw [(C5_amended_lifecycle osGetsockFail 0 8).1]; decide,
   (C5_amended_lifecycle osGetsockFail 0 8).2.2 3 rfl (by decide)⟩

/-- C6: given a constructed socket and a successful bind, the `getsockname`
discovery query is performed if and only if the requested port was 0, and a
failing query raises the I/O error built from the query's own error number,
after which neither listen nor accept runs. -/
theorem C6_discover_iff (os : OS) (port : Int) (fuel : Nat) (sd : Int)
    (hsock : os.socketRes = .ok sd) (hbind : os.bindRes = .ok ()) :
    ((∃ x, Event.callGetsockname x ∈ nativeStartTcpServer os port fuel) ↔
      port = 0) ∧
    (∀ e, port = 0 → os.getsocknameRes = .error e →
      Event.raiseErr (os.strerror e) ∈ nativeStartTcpServer os port fuel ∧
      (∀ x b, Event.callListen x b ∉ nativeStartTcpServer os port fuel) ∧
      (∀ x, Event.callAccept x ∉ nativeStartTcpServer os port fuel)) := by
  constructor
  · constructor
    · rintro ⟨x, hx⟩
      by_contra hport
      exact server_no_getsockname os port fuel hport x hx
    · intro hport
      subst hport
      exact ⟨sd, server_getsockname_present os fuel sd hsock hbind⟩
  · intro e hport hgs
    subst hport
    rw [server_trace_gsfail os fuel sd e hsock hbind hgs]
    refine ⟨by simp, ?_, ?_⟩
    · intro x b
      simp [mem_close_ite]
    · intro x
      simp [mem_close_ite]

/-- Witness for C6 at an oracle whose discovery query fails with errno 9. -/
theorem C6_witness :
    (∃ x, Event.callGetsockname x ∈ nativeStartTcpServer osGetsockFail 0 8) ∧
    Event.raiseErr "Connection reset by peer" ∈
      nativeStartTcpServer osGetsockFail 0 8 ∧
    (∀ x b, Event.callListen x b ∉ nativeStartTcpServer osGetsockFail 0 8) := by
  have h := C6_discover_iff osGetsockFail 0 8 3 rfl rfl
  exact ⟨h.1.mpr rfl, (h.2 9 rfl rfl).1, (h.2 9 rfl rfl).2.1⟩

/-- C7: when the receive yields `d` (nonempty, at most 79 bytes) and the send
syscall accepts only `m < d.length` bytes, the iteration completes as a
success: the single send call carries the full `d` (nothing is re-sent), no
second send of the remaining bytes happens, and the loop proceeds directly to
the next receive. -/
theorem C7_short_send (os : OS) (cs : Int) (buf : List Nat) (i fuel : Nat)
    (d : List Nat) (m : Nat) (hbuf : buf.length = 80)
    (hrecv : os.recvStream i = .ok d) (hlen : d.length ≤ 79) (hne : d ≠ [])
    (hsend : os.sendStream i = .ok m) (hm0 : 0 < m) (hmN : m < d.length) :
    echoLoop os cs buf i (fuel + 2) =
      ([Event.log .receiving, Event.callRecv cs 79,
        Event.log (.received d.length d), Event.log .sending,
        Event.callSend cs d, Event.log (.sent m d)] ++
        (echoLoop os cs (bufAfter buf d) (i + 1) (fuel + 1)).1,
        (echoLoop os cs (bufAfter buf d) (i + 1) (fuel + 1)).2) ∧
    sendPayloads ((echoLoop os cs buf i (fuel + 2)).1.take 6) = [d] ∧
    (∃ t, (echoLoop os cs buf i (fuel + 2)).1 =
      [Event.log .receiving, Event.callRecv cs 79,
        Event.log (.received d.length d), Event.log .sending,
        Event.callSend cs d, Event.log (.sent m d)] ++
      Event.log .receiving :: Event.callRecv cs 79 :: t) := by
  have htake : d.take 79 = d := List.take_of_length_le hlen
  have hmin : min m d.length = m := min_eq_left hmN.le
  have heq := loop_step_eq os cs buf i (fuel + 1) d d m hbuf hrecv htake hne
    hsend (by rw [hmin]; exact hm0)
  rw [hmin] at heq
  refine ⟨heq, ?_, ?_⟩
  · rw [heq]
    rw [List.take_left' (by simp)]
    simp [sendPayloads]
  · obtain ⟨t, ht⟩ := echoLoop_starts_receiving os cs (bufAfter buf d)
      (i + 1) fuel (by simp [bufAfter_length, hbuf])
    refine ⟨t, ?_⟩
    rw [heq]
    show _ ++ _ = _
    rw [ht]

/-- Witness for C7: "ping" is received (4 bytes) but the OS accepts only 2;
the single send still carries all four bytes and is not retried. -/
theorem C7_witness :
    sendPayloads ((echoLoop osShortSend 4
      (List.replicate MAX_BUFFER_SIZE 0) 0 2).1.take 6) =
      [[112, 105, 110, 103]] := by
  have h := C7_short_send osShortSend 4 (List.replicate MAX_BUFFER_SIZE 0) 0 0
    [112, 105, 110, 103] 2 (by decide) rfl (by norm_num) (by decide) rfl
    (by norm_num) (by norm_num)
  exact h.2.1

/-- C8: every receive syscall of a server run requests at most 79 bytes (one
less than the 80-byte buffer), and after any successful receive the buffer is
zero-terminated at the received length, an in-bounds write: the received
length is at most 79, strictly less than the buffer's length, which stays
80. -/
theorem C8_buffer_bounds (os : OS) :
    (∀ port fuel x n,
      Event.callRecv x n ∈ nativeStartTcpServer os port fuel → n = 79) ∧
    (∀ i sd buf data, buf.length = 80 → os.recvStream i = .ok data →
      (ReceiveFromSocket os i sd buf MAX_BUFFER_SIZE).recvSize.toNat ≤ 79 ∧
      (ReceiveFromSocket os i sd buf MAX_BUFFER_SIZE).recvSize.toNat <
        (ReceiveFromSocket os i sd buf MAX_BUFFER_SIZE).buffer.length ∧
      (ReceiveFromSocket os i sd buf MAX_BUFFER_SIZE).buffer.length = 80 ∧
      (ReceiveFromSocket os i sd buf MAX_BUFFER_SIZE).buffer.getD
        (ReceiveFromSocket os i sd buf MAX_BUFFER_SIZE).recvSize.toNat 1 =
        0) := by
  refine ⟨fun port fuel x n h => server_recv_always_79 os port fuel x n h, ?_⟩
  intro i sd buf data hbuf hdata
  by_cases hz : data.take 79 = []
  · rw [recv_zero_eq os i sd buf MAX_BUFFER_SIZE data hdata
      (by simpa [MAX_BUFFER_SIZE] using hz)]
    refine ⟨by norm_num, ?_, ?_, ?_⟩
    · simp [bufAfter_length, hbuf]
    · simp [bufAfter_length, hbuf]
    · show (bufAfter buf []).getD 0 1 = 0
      exact bufAfter_terminated buf [] (by simp [hbuf])
  · rw [recv_pos_eq os i sd buf MAX_BUFFER_SIZE data hdata
      (by simp only [MAX_BUFFER_SIZE]; exact hz)]
    have hlt : (data.take (MAX_BUFFER_SIZE - 1)).length ≤ 79 := by
      simp only [MAX_BUFFER_SIZE]
      exact List.length_take_le 79 data
    refine ⟨by simp only [Int.toNat_natCast]; exact hlt, ?_, ?_, ?_⟩
    · simp only [Int.toNat_natCast]
      rw [bufAfter_length, hbuf]
      omega
    · simp [bufAfter_length, hbuf]
    · simp only [Int.toNat_natCast]
      exact bufAfter_terminated buf _ (by rw [hbuf]; omega)

/-- Witness for C8 at the "ping" oracle: 4 bytes received, terminator written
in bounds. -/
theorem C8_witness :
    (ReceiveFromSocket osBase 0 4 (List.replicate MAX_BUFFER_SIZE 0)
      MAX_BUFFER_SIZE).recvSize.toNat ≤ 79 ∧
    (ReceiveFromSocket osBase 0 4 (List.replicate MAX_BUFFER_SIZE 0)
      MAX_BUFFER_SIZE).buffer.getD
      (ReceiveFromSocket osBase 0 4 (List.replicate MAX_BUFFER_SIZE 0)
        MAX_BUFFER_SIZE).recvSize.toNat 1 = 0 := by
  have h := (C8_buffer_bounds osBase).2 0 4 (List.replicate MAX_BUFFER_SIZE 0)
    [112, 105, 110, 103] (by decide) rfl
  exact ⟨h.1, h.2.2.2⟩

/-- C9: for a requested port that is a nonzero multiple of 65536 the bind
syscall is performed with port 0 (the 16-bit truncation), requesting an
ephemeral port, while the discovery query — gated by the untruncated
`port == 0` test — never runs, so the actual bound port is never resolved. -/
theorem C9_truncated_bind_no_discover (os : OS) (port : Int) (fuel : Nat)
    (sd : Int) (hsock : os.socketRes = .ok sd) (hport : port ≠ 0)
    (hmod : port % 65536 = 0) :
    Event.callBind sd 0 ∈ nativeStartTcpServer os port fuel ∧
    ∀ x, Event.callGetsockname x ∉ nativeStartTcpServer os port fuel := by
  constructor
  · have h := server_bind_attempted os port fuel sd hsock
    rw [hmod] at h
    simpa using h
  · exact fun x => server_no_getsockname os port fuel hport x

/-- Witness for C9 at requested port 65536: bind is called with port 0 and no
discovery query happens. -/
theorem C9_witness :
    Event.callBind 3 0 ∈ nativeStartTcpServer osBase 65536 8 ∧
    Event.callGetsockname 3 ∉ nativeStartTcpServer osBase 65536 8 := by
  have h := C9_truncated_bind_no_discover osBase 65536 8 3 rfl (by decide)
    (by decide)
  exact ⟨h.1, h.2 3⟩

/-- C10: the client entry point ignores its ip, port and message arguments
(all runs with the same oracle are identical), never performs a connect, send
or receive syscall, and only constructs a socket and — exactly when
construction raised no error — immediately closes it. -/
theorem C10_client_degenerate (os : OS) :
    (∀ ip port message ip2 port2 message2,
      nativeStartTcpClient os ip port message =
        nativeStartTcpClient os ip2 port2 message2) ∧
    (∀ ip port message x,
      Event.callConnect x ∉ nativeStartTcpClient os ip port message) ∧
    (∀ ip port message x p,
      Event.callSend x p ∉ nativeStartTcpClient os ip port message) ∧
    (∀ ip port message x n,
      Event.callRecv x n ∉ nativeStartTcpClient os ip port message) ∧
    (∀ ip port message sd, os.socketRes = .ok sd →
      nativeStartTcpClient os ip port message =
        [Event.log .constructing, Event.callSocket, Event.callClose sd]) ∧
    (∀ ip port message e, os.socketRes = .error e →
      ∀ x, Event.callClose x ∉ nativeStartTcpClient os ip port message) := by
  refine ⟨fun _ _ _ _ _ _ => rfl, ?_, ?_, ?_,
    fun ip port message sd h => client_ok_eq os ip port message sd h, ?_⟩
  · intro ip port message x
    cases hsock : os.socketRes with
    | ok sd =>
        rw [client_ok_eq os ip port message sd hsock]
        simp
    | error e =>
        rw [client_error_eq os ip port message e hsock]
        simp
  · intro ip port message x p
    cases hsock : os.socketRes with
    | ok sd =>
        rw [client_ok_eq os ip port message sd hsock]
        simp
    | error e =>
        rw [client_error_eq os ip port message e hsock]
        simp
  · intro ip port message x n
    cases hsock : os.socketRes with
    | ok sd =>
        rw [client_ok_eq os ip port message sd hsock]
        simp
    | error e =>
        rw [client_error_eq os ip port message e hsock]
        simp
  · intro ip port message e h x
    rw [client_error_eq os ip port message e h]
    simp

/-- Witness for C10: a concrete client run only constructs and closes. -/
theorem C10_witness :
    nativeStartTcpClient osBase "127.0.0.1" 5000 "hello" =
      [Event.log .constructing, Event.callSocket, Event.callClose 3] :=
  (C10_client_degenerate osBase).2.2.2.2.1 "127.0.0.1" 5000 "hello" 3 rfl

end Echo
